import Mathlib

/-!
Shallow embedding of `api/factories/file_factory.py`: the type classifier,
the three file-build paths, the upload-policy predicate, the batch builder
and the batched storage-key loader, together with theorems settling the
specification claims about them.
-/

set_option linter.unusedVariables false
set_option linter.unreachableTactic false
set_option linter.unusedTactic false

namespace FileFactory

/-- Embeds `FileType` (from `core.file`, a string-valued enum with members
image, video, audio, document, custom). -/
inductive FileType where
  | image
  | video
  | audio
  | document
  | custom
deriving DecidableEq, Repr

/-- String value of a `FileType` member (Python `.value`; the enum is a
`StrEnum`, so a member compares equal to its value). -/
def FileType.value : FileType → String
  | .image => "image"
  | .video => "video"
  | .audio => "audio"
  | .document => "document"
  | .custom => "custom"

/-- Embeds the `FileType(...)` constructor call: succeeds exactly on the five
member values, otherwise Python raises `ValueError`. -/
def FileType.fromValue : String → Option FileType
  | "image" => some .image
  | "video" => some .video
  | "audio" => some .audio
  | "document" => some .document
  | "custom" => some .custom
  | _ => none

/-- Embeds `FileTransferMethod` (from `core.file`): local_file, remote_url,
tool_file. -/
inductive FileTransferMethod where
  | local_file
  | remote_url
  | tool_file
deriving DecidableEq, Repr

/-- Embeds `FileTransferMethod.value_of`: maps the string token to the member,
raising `ValueError` (here `none`) on anything else, including a missing
value. -/
def FileTransferMethod.value_of : Option String → Option FileTransferMethod
  | some "local_file" => some .local_file
  | some "remote_url" => some .remote_url
  | some "tool_file" => some .tool_file
  | _ => none

/-- Modelled from the spec: the per-category extension tables
(`IMAGE_EXTENSIONS`, `VIDEO_EXTENSIONS`, `AUDIO_EXTENSIONS`,
`DOCUMENT_EXTENSIONS` from the repository's `constants` module, which is not
under `src/`). The spec describes them only as "a fixed set membership test
against per-category extension lists", so the four lists are parameters of
the classifier here. -/
structure ExtensionSets where
  image : List String
  video : List String
  audio : List String
  document : List String
deriving DecidableEq, Repr

/-- Embeds Python `s.lstrip(".")`: removes every leading '.' character. -/
def lstripDots (s : String) : String :=
  String.mk (s.data.dropWhile (fun c => c = '.'))

/-- Embeds the Python substring test `needle in haystack` on strings. -/
def strHasSub (s sub : String) : Bool :=
  (List.range (s.data.length + 1)).any
    (fun i => ((s.data.drop i).take sub.data.length) = sub.data)

/-- Splitting kernel for `pySplit`, recursing on a fuel bounded by the input
length so that evaluation is purely structural. -/
def pySplitAux (sep : List Char) : Nat → List Char → List Char → List (List Char)
  | 0, s, acc => [acc.reverse ++ s]
  | _ + 1, [], acc => [acc.reverse]
  | fuel + 1, c :: rest, acc =>
    if sep ≠ [] ∧ sep.isPrefixOf (c :: rest) then
      acc.reverse :: pySplitAux sep fuel ((c :: rest).drop sep.length) []
    else pySplitAux sep fuel rest (c :: acc)

/-- Embeds Python `s.split(sep)` for a non-empty separator: the list of
pieces between non-overlapping occurrences of `sep`. -/
def pySplit (s sep : String) : List String :=
  (pySplitAux sep.data (s.data.length + 1) s.data []).map String.mk

/-- Joins strings with a separator (inverse of `pySplit` on its pieces). -/
def joinSep (sep : String) : List String → String
  | [] => ""
  | [x] => x
  | x :: xs => x ++ sep ++ joinSep sep xs

/-- ASCII lowercase of one character. -/
def lowerChar (c : Char) : Char :=
  if 'A' ≤ c ∧ c ≤ 'Z' then Char.ofNat (c.toNat + 32) else c

/-- Embeds Python `s.lower()` for the ASCII strings handled here. -/
def strLower (s : String) : String :=
  String.mk (s.data.map lowerChar)

/-- Embeds `_get_file_type_by_extension`: strip leading dots, then a
membership test against the four extension lists in order. -/
def getFileTypeByExtension (sets : ExtensionSets) (extension : String) :
    Option FileType :=
  let e := lstripDots extension
  if e ∈ sets.image then some .image
  else if e ∈ sets.video then some .video
  else if e ∈ sets.audio then some .audio
  else if e ∈ sets.document then some .document
  else none

/-- Embeds `_get_file_type_by_mimetype`: substring tests on the mime-type
string, falling through to CUSTOM. -/
def getFileTypeByMimetype (mime_type : String) : FileType :=
  if strHasSub mime_type "image" then .image
  else if strHasSub mime_type "video" then .video
  else if strHasSub mime_type "audio" then .audio
  else if strHasSub mime_type "text" ∨ strHasSub mime_type "pdf" then .document
  else .custom

/-- Embeds `_standardize_file_type`: extension first (when truthy), then
mime-type (when truthy), defaulting to CUSTOM. An absent (`None`) mime-type
is passed as `""`, matching Python falsiness. -/
def standardizeFileType (sets : ExtensionSets) (extension : String)
    (mime_type : String) : FileType :=
  let guessed1 : Option FileType :=
    if extension ≠ "" then getFileTypeByExtension sets extension else none
  let guessed2 : Option FileType :=
    match guessed1 with
    | some t => some t
    | none => if mime_type ≠ "" then some (getFileTypeByMimetype mime_type) else none
  guessed2.getD .custom

/-- Embeds the `UploadFile` database record (from `models`): the fields read
by the factory. `extension` is stored without a leading dot. -/
structure UploadFile where
  id : String
  tenant_id : String
  name : String
  extension : String
  mime_type : String
  source_url : String
  size : Int
  key : String
deriving DecidableEq, Repr

/-- Embeds the `ToolFile` database record (from `models`): the fields read by
the factory. -/
structure ToolFile where
  id : String
  tenant_id : String
  name : String
  file_key : String
  mimetype : String
  original_url : String
  size : Int
deriving DecidableEq, Repr

/-- Embeds the record store reachable through `db.session`: the rows of the
two tables the factory queries. -/
structure Database where
  upload_files : List UploadFile
  tool_files : List ToolFile
deriving DecidableEq, Repr

/-- Embeds `db.session.scalar(select(UploadFile).where(id == i, tenant_id == t))`:
the first matching row, or `None`. -/
def findUploadFile (db : Database) (id tenant : String) : Option UploadFile :=
  db.upload_files.find? (fun r => r.id = id ∧ r.tenant_id = tenant)

/-- Embeds `db.session.scalar(select(ToolFile).where(id == i, tenant_id == t))`. -/
def findToolFile (db : Database) (id tenant : String) : Option ToolFile :=
  db.tool_files.find? (fun r => r.id = id ∧ r.tenant_id = tenant)

/-- Embeds the `File` entity (from `core.file`): the fields this factory
sets. `storage_key` is the one field the storage-key loader later rewrites. -/
structure File where
  id : Option String
  filename : String
  extension : String
  mime_type : Option String
  tenant_id : String
  type : FileType
  transfer_method : FileTransferMethod
  remote_url : Option String
  related_id : Option String
  size : Int
  storage_key : String
deriving DecidableEq, Repr

/-- Embeds the caller-supplied descriptor mapping: the keys the factory reads
via `mapping.get`. `none` stands for an absent key. -/
structure FileMapping where
  transfer_method : Option String := none
  url : Option String := none
  remote_url : Option String := none
  id : Option String := none
  type : Option String := none
  upload_file_id : Option String := none
  tool_file_id : Option String := none
deriving DecidableEq, Repr

/-- Models CPython's `mimetypes.types_map` entries for the extensions
exercised here (the `mimetypes` module is standard-library, external to the
repository). -/
def mimeTypesTable : List (String × String) :=
  [(".csv", "text/csv"), (".png", "image/png"), (".jpg", "image/jpeg"),
   (".jpeg", "image/jpeg"), (".gif", "image/gif"), (".pdf", "application/pdf"),
   (".txt", "text/plain"), (".mp4", "video/mp4"), (".mp3", "audio/mpeg"),
   (".bin", "application/octet-stream"), (".zip", "application/zip")]

/-- Models `mimetypes.guess_type(filename)[0]`: look up the lowercased suffix
after the last dot; `None` when there is no dot or no table entry. -/
def guessType (filename : String) : Option String :=
  if strHasSub filename "." then
    let ext := "." ++ strLower ((pySplit filename ".").getLastD "")
    (mimeTypesTable.find? (fun p => p.1 = ext)).map (fun p => p.2)
  else none

/-- Models `mimetypes.guess_extension(mime)`: the table's first extension for
the mime-type, as CPython returns for these types; `None` when unknown. The
argument is optional because the caller may pass a missing mime-type. -/
def guessExtension : Option String → Option String
  | none => none
  | some m => (mimeTypesTable.find? (fun p => p.2 = m)).map (fun p => p.1)

/-- Models `urllib.parse.urlparse(url).path`: drop the fragment and query,
then the scheme and network location, keeping the path from its first
slash. -/
def urlPath (url : String) : String :=
  let u := (pySplit ((pySplit url "#").headD "") "?").headD ""
  match pySplit u "://" with
  | _ :: rest :: _ =>
    match pySplit rest "/" with
    | _ :: ps => if ps.isEmpty then "" else "/" ++ joinSep "/" ps
    | [] => ""
  | _ => u

/-- Models `os.path.basename`: the component after the last slash. -/
def basename (path : String) : String :=
  (pySplit path "/").getLastD ""

/-- Embeds Python `s.strip(ch)` for a single strip character: remove it from
both ends. -/
def stripChar (s : String) (c : Char) : String :=
  String.mk (((s.data.dropWhile (fun x => x = c)).reverse.dropWhile
    (fun x => x = c)).reverse)

/-- Models the response of `ssrf_proxy.head(url, follow_redirects=True)`: the
status test `status_code == httpx.codes.OK` and the two headers the factory
reads. -/
structure HeadResponse where
  statusOK : Bool
  contentDisposition : Option String
  contentLength : Option Int
deriving DecidableEq, Repr

/-- Embeds `_get_remote_file_info`: guess filename and mime-type from the URL
path, then on an OK HEAD response override them from Content-Disposition and
take the size from Content-Length; on a non-OK response keep the guesses and
size -1. -/
def getRemoteFileInfo (probe : String → HeadResponse) (url : String) :
    Option String × String × Int :=
  let filename := basename (urlPath url)
  let mime_type := guessType filename
  let resp := probe url
  if resp.statusOK then
    let (filename, mime_type) :=
      match resp.contentDisposition with
      | some cd =>
        let f := stripChar ((pySplit cd "filename=").getLastD "") '"'
        (f, guessType f)
      | none => (filename, mime_type)
    (mime_type, filename, resp.contentLength.getD (-1))
  else (mime_type, filename, -1)

/-- Modelled from the spec: `SignedUrlIssuer.sign(recordId) -> url`
(`helpers.get_signed_file_url`, which lives outside `src/`); an opaque
URL-producing map whose exact shape no claim depends on. -/
def getSignedFileUrl (upload_file_id : String) : String :=
  "signed:" ++ upload_file_id

/-- Models `uuid.UUID(s)` acceptance for the hyphenated and plain hex forms:
after removing hyphens there must be exactly 32 hex digits. -/
def isValidUUID (s : String) : Bool :=
  let t := s.data.filter (fun c => c ≠ '-')
  t.length = 32 ∧ t.all (fun c =>
    c.isDigit ∨ ('a' ≤ c ∧ c ≤ 'f') ∨ ('A' ≤ c ∧ c ≤ 'F'))

/-- The distinct `ValueError` sites of the factory, told apart by message. -/
inductive BuildErr where
  | invalidTransferMethod
  | invalidUploadFileId
  | invalidUploadFileIdFormat
  | uploadFileNotFound
  | invalidFileUrl
  | toolFileNotFound
  | typeMismatch
  | invalidFileTypeValue
  | policyViolation
  | tooManyImages
  | tooManyFiles
deriving DecidableEq, Repr

/-- Truthiness of an optional string (Python: `None` and `""` are falsy). -/
def truthyStr : Option String → Bool
  | none => false
  | some s => s ≠ ""

/-- Embeds `_build_from_local_file`: validate and look up the upload record,
classify, run the strict declared-vs-detected check (the declared type
defaults to "custom" when absent), and assemble the `File` from the row. -/
def buildFromLocalFile (sets : ExtensionSets) (db : Database)
    (mapping : FileMapping) (tenant_id : String)
    (transfer_method : FileTransferMethod) (strict_type_validation : Bool) :
    Except BuildErr File :=
  if ¬ truthyStr mapping.upload_file_id then .error .invalidUploadFileId
  else
    let upload_file_id := mapping.upload_file_id.getD ""
    if ¬ isValidUUID upload_file_id then .error .invalidUploadFileIdFormat
    else
      match findUploadFile db upload_file_id tenant_id with
      | none => .error .uploadFileNotFound
      | some row =>
        let detected_file_type :=
          standardizeFileType sets ("." ++ row.extension) row.mime_type
        let specified_type := mapping.type.getD "custom"
        if strict_type_validation ∧ detected_file_type.value ≠ specified_type then
          .error .typeMismatch
        else
          let file_type : Except BuildErr FileType :=
            if specified_type ≠ "" ∧ specified_type ≠ "custom" then
              match FileType.fromValue specified_type with
              | some t => .ok t
              | none => .error .invalidFileTypeValue
            else .ok detected_file_type
          file_type.map (fun ft =>
            { id := mapping.id
              filename := row.name
              extension := "." ++ row.extension
              mime_type := some row.mime_type
              tenant_id := tenant_id
              type := ft
              transfer_method := transfer_method
              remote_url := some row.source_url
              related_id := mapping.upload_file_id
              size := row.size
              storage_key := row.key })

/-- Embeds `_build_from_remote_url`. With a truthy `upload_file_id` it
mirrors the local path but signs the URL and only runs the strict check when
a type was declared; otherwise the bare-URL path probes the remote metadata,
derives an extension, and unconditionally requires the classified type to
equal the declared type (defaulting to "custom"). -/
def buildFromRemoteUrl (sets : ExtensionSets) (db : Database)
    (probe : String → HeadResponse) (mapping : FileMapping)
    (tenant_id : String) (transfer_method : FileTransferMethod)
    (strict_type_validation : Bool) : Except BuildErr File :=
  if truthyStr mapping.upload_file_id then
    let upload_file_id := mapping.upload_file_id.getD ""
    if ¬ isValidUUID upload_file_id then .error .invalidUploadFileIdFormat
    else
      match findUploadFile db upload_file_id tenant_id with
      | none => .error .uploadFileNotFound
      | some upload_file =>
        let detected_file_type :=
          standardizeFileType sets ("." ++ upload_file.extension) upload_file.mime_type
        let specified_type := mapping.type
        if strict_type_validation ∧ truthyStr specified_type ∧
            detected_file_type.value ≠ specified_type.getD "" then
          .error .typeMismatch
        else
          let file_type : Except BuildErr FileType :=
            if truthyStr specified_type ∧ specified_type.getD "" ≠ "custom" then
              match FileType.fromValue (specified_type.getD "") with
              | some t => .ok t
              | none => .error .invalidFileTypeValue
            else .ok detected_file_type
          file_type.map (fun ft =>
            { id := mapping.id
              filename := upload_file.name
              extension := "." ++ upload_file.extension
              mime_type := some upload_file.mime_type
              tenant_id := tenant_id
              type := ft
              transfer_method := transfer_method
              remote_url := some (getSignedFileUrl upload_file_id)
              related_id := mapping.upload_file_id
              size := upload_file.size
              storage_key := upload_file.key })
  else
    let url := if truthyStr mapping.url then mapping.url else mapping.remote_url
    if ¬ truthyStr url then .error .invalidFileUrl
    else
      let u := url.getD ""
      let info := getRemoteFileInfo probe u
      let mime_type := info.1
      let filename := info.2.1
      let file_size := info.2.2
      let extension :=
        match guessExtension mime_type with
        | some e => e
        | none =>
          if strHasSub filename "." then "." ++ (pySplit filename ".").getLastD ""
          else ".bin"
      let file_type := standardizeFileType sets extension (mime_type.getD "")
      if file_type.value ≠ mapping.type.getD "custom" then .error .typeMismatch
      else
        .ok { id := mapping.id
              filename := filename
              extension := extension
              mime_type := mime_type
              tenant_id := tenant_id
              type := file_type
              transfer_method := transfer_method
              remote_url := some u
              related_id := none
              size := file_size
              storage_key := "" }

/-- Embeds `_build_from_tool_file`: look up the tool record (a missing
`tool_file_id` key matches no row), derive the extension from the file key,
classify, run the strict check only when a type was declared, and assemble
the `File`. -/
def buildFromToolFile (sets : ExtensionSets) (db : Database)
    (mapping : FileMapping) (tenant_id : String)
    (transfer_method : FileTransferMethod) (strict_type_validation : Bool) :
    Except BuildErr File :=
  let row :=
    match mapping.tool_file_id with
    | none => none
    | some tfid => findToolFile db tfid tenant_id
  match row with
  | none => .error .toolFileNotFound
  | some tool_file =>
    let extension :=
      if strHasSub tool_file.file_key "." then
        "." ++ (pySplit tool_file.file_key ".").getLastD ""
      else ".bin"
    let detected_file_type := standardizeFileType sets extension tool_file.mimetype
    let specified_type := mapping.type
    if strict_type_validation ∧ truthyStr specified_type ∧
        detected_file_type.value ≠ specified_type.getD "" then
      .error .typeMismatch
    else
      let file_type : Except BuildErr FileType :=
        if truthyStr specified_type ∧ specified_type.getD "" ≠ "custom" then
          match FileType.fromValue (specified_type.getD "") with
          | some t => .ok t
          | none => .error .invalidFileTypeValue
        else .ok detected_file_type
      file_type.map (fun ft =>
        { id := mapping.id
          filename := tool_file.name
          extension := extension
          mime_type := some tool_file.mimetype
          tenant_id := tenant_id
          type := ft
          transfer_method := transfer_method
          remote_url := some tool_file.original_url
          related_id := some tool_file.id
          size := tool_file.size
          storage_key := tool_file.file_key })

/-- Modelled from the spec together with the field accesses in the source:
the image sub-configuration of `FileUploadConfig` (`core.file`, outside
`src/`) — an optional transfer-method allow-list and an image count limit. -/
structure ImageConfig where
  number_limits : Nat
  transfer_methods : Option (List FileTransferMethod)
deriving DecidableEq, Repr

/-- Modelled from the spec together with the field accesses in the source:
`FileUploadConfig` (`core.file`, outside `src/`) — optional allow-lists of
categories, raw extensions and transfer methods, an optional image
sub-configuration, and an overall count limit (0 meaning unset, matching
Python falsiness). -/
structure FileUploadConfig where
  allowed_file_types : Option (List String)
  allowed_file_extensions : Option (List String)
  allowed_file_upload_methods : Option (List FileTransferMethod)
  image_config : Option ImageConfig
  number_limits : Nat
deriving DecidableEq, Repr

/-- Truthiness of an optional list (Python: `None` and `[]` are falsy). -/
def truthyList : Option (List α) → Bool
  | none => false
  | some l => ¬ l.isEmpty

/-- Embeds `_is_file_valid_with_config`: the four sequential gates over the
declared type string, the extension, the transfer method and the
configuration. -/
def isFileValidWithConfig (input_file_type : String) (file_extension : String)
    (file_transfer_method : FileTransferMethod) (config : FileUploadConfig) :
    Bool :=
  if truthyList config.allowed_file_types ∧
      input_file_type ∉ config.allowed_file_types.getD [] ∧
      input_file_type ≠ "custom" then false
  else if input_file_type = "custom" ∧
      config.allowed_file_extensions ≠ none ∧
      file_extension ∉ config.allowed_file_extensions.getD [] then false
  else if input_file_type = "image" then
    match config.image_config with
    | some ic =>
      if truthyList ic.transfer_methods ∧
          file_transfer_method ∉ ic.transfer_methods.getD [] then false
      else true
    | none => true
  else if truthyList config.allowed_file_upload_methods ∧
      file_transfer_method ∉ config.allowed_file_upload_methods.getD [] then false
  else true

/-- Embeds `build_from_mapping`: dispatch on the transfer-method token, build,
then when a config is supplied validate with the declared type from the
mapping (defaulting to CUSTOM) and the built file's extension and method. -/
def buildFromMapping (sets : ExtensionSets) (db : Database)
    (probe : String → HeadResponse) (mapping : FileMapping)
    (tenant_id : String) (config : Option FileUploadConfig)
    (strict_type_validation : Bool) : Except BuildErr File :=
  match FileTransferMethod.value_of mapping.transfer_method with
  | none => .error .invalidTransferMethod
  | some transfer_method =>
    let built : Except BuildErr File :=
      match transfer_method with
      | .local_file =>
        buildFromLocalFile sets db mapping tenant_id transfer_method
          strict_type_validation
      | .remote_url =>
        buildFromRemoteUrl sets db probe mapping tenant_id transfer_method
          strict_type_validation
      | .tool_file =>
        buildFromToolFile sets db mapping tenant_id transfer_method
          strict_type_validation
    match built with
    | .error e => .error e
    | .ok file =>
      match config with
      | none => .ok file
      | some cfg =>
        if isFileValidWithConfig (mapping.type.getD "custom") file.extension
            file.transfer_method cfg then .ok file
        else .error .policyViolation

/-- Embeds `build_from_mappings`: build each file in order (failing fast on
the first per-file error), then the image-count check, then the overall count
check. -/
def buildFromMappings (sets : ExtensionSets) (db : Database)
    (probe : String → HeadResponse) (mappings : List FileMapping)
    (config : Option FileUploadConfig) (tenant_id : String)
    (strict_type_validation : Bool) : Except BuildErr (List File) :=
  match mappings.mapM (fun m =>
      buildFromMapping sets db probe m tenant_id config strict_type_validation) with
  | .error e => .error e
  | .ok files =>
    let imageExceeded : Bool :=
      match config with
      | some cfg =>
        match cfg.image_config with
        | some ic =>
          decide ((files.filter (fun f => f.type = FileType.image)).length >
            ic.number_limits)
        | none => false
      | none => false
    if imageExceeded then .error .tooManyImages
    else
      let countExceeded : Bool :=
        match config with
        | some cfg => decide (cfg.number_limits ≠ 0 ∧ files.length > cfg.number_limits)
        | none => false
      if countExceeded then .error .tooManyFiles
      else .ok files

/-- Normal form of a UUID string, modelling `uuid.UUID` equality between the
hyphenated form stored in the descriptor and the form used as a map key:
lowercase hex with hyphens removed. -/
def normUUID (s : String) : String :=
  strLower (String.mk (s.data.filter (fun c => c ≠ '-')))

/-- The distinct `ValueError` sites of `StorageKeyLoader.load_storage_keys`. -/
inductive LoadErr where
  | missingReference
  | tenantMismatch
  | invalidUUIDFormat
  | uploadFileNotFound
  | toolFileNotFound
deriving DecidableEq, Repr

/-- Embeds the first loop of `load_storage_keys`: per file, fail on a missing
related id, then on a tenant mismatch, then on an unparsable id; otherwise
append the normalized id to the upload-file or tool-file id list. No file is
modified in this phase. -/
def partitionIds (tenant_id : String) : List File →
    Except LoadErr (List String × List String)
  | [] => .ok ([], [])
  | file :: rest =>
    match file.related_id with
    | none => .error .missingReference
    | some rid =>
      if file.tenant_id ≠ tenant_id then .error .tenantMismatch
      else if ¬ isValidUUID rid then .error .invalidUUIDFormat
      else
        match partitionIds tenant_id rest with
        | .error e => .error e
        | .ok (uids, tids) =>
          match file.transfer_method with
          | .local_file => .ok (normUUID rid :: uids, tids)
          | .remote_url => .ok (normUUID rid :: uids, tids)
          | .tool_file => .ok (uids, normUUID rid :: tids)

/-- Embeds the result map of `_load_upload_files`: the batched query restricts
to the collected ids and the loader's tenant; `map.get` then finds the first
matching row. -/
def loaderUploadLookup (db : Database) (tenant_id : String)
    (uids : List String) (nid : String) : Option UploadFile :=
  if nid ∈ uids then
    db.upload_files.find? (fun r => normUUID r.id = nid ∧ r.tenant_id = tenant_id)
  else none

/-- Embeds the result map of `_load_tool_files`. -/
def loaderToolLookup (db : Database) (tenant_id : String)
    (tids : List String) (nid : String) : Option ToolFile :=
  if nid ∈ tids then
    db.tool_files.find? (fun r => normUUID r.id = nid ∧ r.tenant_id = tenant_id)
  else none

/-- Embeds the second loop of `load_storage_keys`: walk the files in order,
rewriting each file's `storage_key` from its map entry; a missing entry stops
the loop with the corresponding error, leaving that file and all later files
untouched (earlier files have already been rewritten). -/
def assignStorageKeys (umap : String → Option UploadFile)
    (tmap : String → Option ToolFile) : List File →
    Except LoadErr Unit × List File
  | [] => (.ok (), [])
  | file :: rest =>
    let nid := normUUID (file.related_id.getD "")
    match file.transfer_method with
    | .local_file | .remote_url =>
      match umap nid with
      | none => (.error .uploadFileNotFound, file :: rest)
      | some row =>
        let updated := { file with storage_key := row.key }
        let (outcome, rest') := assignStorageKeys umap tmap rest
        (outcome, updated :: rest')
    | .tool_file =>
      match tmap nid with
      | none => (.error .toolFileNotFound, file :: rest)
      | some row =>
        let updated := { file with storage_key := row.file_key }
        let (outcome, rest') := assignStorageKeys umap tmap rest
        (outcome, updated :: rest')

instance {ε α : Type} [DecidableEq ε] [DecidableEq α] :
    DecidableEq (Except ε α) := fun a b =>
  match a, b with
  | .ok x, .ok y =>
    if h : x = y then isTrue (by rw [h]) else isFalse (by simp [h])
  | .error x, .error y =>
    if h : x = y then isTrue (by rw [h]) else isFalse (by simp [h])
  | .ok _, .error _ => isFalse (by simp)
  | .error _, .ok _ => isFalse (by simp)

/-- Outcome of a `load_storage_keys` run: the raised error (if any), the state
of the file sequence when the call returns or raises, and the number of
batched database queries issued. -/
structure LoadResult where
  outcome : Except LoadErr Unit
  files : List File
  queryCount : Nat
deriving DecidableEq, Repr

/-- Embeds `StorageKeyLoader.load_storage_keys`: partition and validate, issue
the two batched lookups, then assign each file's storage key in order. -/
def loadStorageKeys (db : Database) (tenant_id : String) (files : List File) :
    LoadResult :=
  match partitionIds tenant_id files with
  | .error e => { outcome := .error e, files := files, queryCount := 0 }
  | .ok (uids, tids) =>
    let umap := loaderUploadLookup db tenant_id uids
    let tmap := loaderToolLookup db tenant_id tids
    let (outcome, files') := assignStorageKeys umap tmap files
    { outcome := outcome, files := files', queryCount := 2 }

/-- Concrete extension tables used to instantiate the parametric classifier
in witnesses: one plausible instance of the fixed per-category lists the spec
describes. -/
def sampleSets : ExtensionSets where
  image := ["jpg", "jpeg", "png", "webp", "gif", "svg"]
  video := ["mp4", "mov", "mpeg", "webm"]
  audio := ["mp3", "m4a", "wav", "amr", "mpga"]
  document := ["txt", "markdown", "md", "pdf", "html", "xlsx", "xls", "doc",
               "docx", "csv", "eml", "msg", "pptx", "ppt", "xml", "epub"]

/-- A probe whose HEAD request never succeeds (non-OK response). -/
def probeDown : String → HeadResponse := fun _ =>
  { statusOK := false, contentDisposition := none, contentLength := none }

/-- An empty record store. -/
def emptyDb : Database := { upload_files := [], tool_files := [] }

def uuidA : String := "00000000-0000-4000-8000-00000000000a"

def uuidB : String := "00000000-0000-4000-8000-00000000000b"

/-- A stored PNG upload record under tenant `t1`. -/
def pngRow : UploadFile where
  id := uuidA
  tenant_id := "t1"
  name := "a.png"
  extension := "png"
  mime_type := "image/png"
  source_url := "http://s/a.png"
  size := 10
  key := "key-a"

def dbPng : Database := { upload_files := [pngRow], tool_files := [] }

theorem standardize_csv_document (sets : ExtensionSets)
    (h1 : "csv" ∉ sets.image) (h2 : "csv" ∉ sets.video) (h3 : "csv" ∉ sets.audio) :
    standardizeFileType sets ".csv" "text/csv" = .document := by
  have hl : lstripDots ".csv" = "csv" := by decide
  have hm : getFileTypeByMimetype "text/csv" = FileType.document := by decide
  have hne : (".csv" : String) ≠ "" := by decide
  have hmne : ("text/csv" : String) ≠ "" := by decide
  unfold standardizeFileType getFileTypeByExtension
  rw [hl]
  by_cases hd : "csv" ∈ sets.document
  · simp [h1, h2, h3, hd, hne]
  · simp [h1, h2, h3, hd, hne, hmne, hm]

/-- C1, counterexample: the claimed scenario — bare REMOTE_URL descriptor
`{url: "https://x/y.csv"}`, no declared category, non-OK HEAD — does not
succeed: the bare-URL path unconditionally compares the classified category
(DOCUMENT) with the declared one (defaulting to "custom") and raises the
type-mismatch `ValueError`. -/
theorem c1_counterexample :
    buildFromMapping sampleSets emptyDb probeDown
      { transfer_method := some "remote_url", url := some "https://x/y.csv" }
      "t1" none false = .error .typeMismatch := by
  decide

/-- C1, amended: building from the bare REMOTE_URL descriptor
`{url: "https://x/y.csv"}` with no declared category and a non-OK HEAD
response probes `filename="y.csv"`, `size=-1`, `mimeType="text/csv"` guessed
from the filename, classifies the file as DOCUMENT (by the extension table
when ".csv" is in it, and by the "text" mime fallback otherwise), and then
fails with TypeMismatch for every strictness setting, because the bare-URL
path unconditionally requires the classified category to equal the declared
one, which defaulted to CUSTOM. -/
theorem c1_amended (sets : ExtensionSets)
    (h1 : "csv" ∉ sets.image) (h2 : "csv" ∉ sets.video)
    (h3 : "csv" ∉ sets.audio) (strict : Bool) :
    getRemoteFileInfo probeDown "https://x/y.csv" = (some "text/csv", "y.csv", -1) ∧
    standardizeFileType sets ".csv" "text/csv" = .document ∧
    buildFromRemoteUrl sets emptyDb probeDown
      { transfer_method := some "remote_url", url := some "https://x/y.csv" }
      "t1" .remote_url strict = .error .typeMismatch := by
  have hstd := standardize_csv_document sets h1 h2 h3
  refine ⟨by decide, hstd, ?_⟩
  have hred : buildFromRemoteUrl sets emptyDb probeDown
      { transfer_method := some "remote_url", url := some "https://x/y.csv" }
      "t1" .remote_url strict =
      (if (standardizeFileType sets ".csv" "text/csv").value ≠ "custom" then
        .error .typeMismatch
      else
        .ok { id := none
              filename := "y.csv"
              extension := ".csv"
              mime_type := some "text/csv"
              tenant_id := "t1"
              type := standardizeFileType sets ".csv" "text/csv"
              transfer_method := .remote_url
              remote_url := some "https://x/y.csv"
              related_id := none
              size := -1
              storage_key := "" }) := rfl
  rw [hred, hstd]
  decide

/-- C1, witness for the amended theorem at the sample extension tables. -/
theorem c1_amended_witness :
    ("csv" ∉ sampleSets.image ∧ "csv" ∉ sampleSets.video ∧
      "csv" ∉ sampleSets.audio) ∧
    getRemoteFileInfo probeDown "https://x/y.csv" = (some "text/csv", "y.csv", -1) ∧
    standardizeFileType sampleSets ".csv" "text/csv" = .document ∧
    buildFromRemoteUrl sampleSets emptyDb probeDown
      { transfer_method := some "remote_url", url := some "https://x/y.csv" }
      "t1" .remote_url false = .error .typeMismatch :=
  ⟨⟨by decide, by decide, by decide⟩,
    c1_amended sampleSets (by decide) (by decide) (by decide) false⟩

theorem fromValue_value {s : String} {t : FileType}
    (h : FileType.fromValue s = some t) : t.value = s := by
  unfold FileType.fromValue at h
  split at h <;>
    first
      | (injection h with h; subst h; rfl)
      | simp at h

/-- C2, counterexample: a LOCAL build whose backing record exists (a ".png"
image record), with strict validation requested and NO caller-specified
category, fails with TypeMismatch — the claim says the failure happens
exactly when an explicit differing category was specified, yet here the
omitted category defaulted to "custom" and was compared against the
classified IMAGE. -/
theorem c2_counterexample :
    buildFromLocalFile sampleSets dbPng { upload_file_id := some uuidA }
      "t1" .local_file true = .error .typeMismatch := by
  decide

/-- C2, amended: for every LOCAL build whose backing record exists, the build
fails with TypeMismatch exactly when strict validation is requested and the
effective declared category — the caller's, defaulting to CUSTOM when
omitted — differs from the classified one; when it succeeds, the File's
category equals the caller-specified category unless the caller specified
CUSTOM (or the default applied, or the value was empty), in which case it
equals the classified category. -/
theorem c2_amended (sets : ExtensionSets) (db : Database)
    (mapping : FileMapping) (tenant : String) (tm : FileTransferMethod)
    (strict : Bool) (row : UploadFile)
    (hid : truthyStr mapping.upload_file_id = true)
    (huuid : isValidUUID (mapping.upload_file_id.getD "") = true)
    (hrow : findUploadFile db (mapping.upload_file_id.getD "") tenant = some row) :
    (buildFromLocalFile sets db mapping tenant tm strict = .error .typeMismatch ↔
      strict = true ∧
        (standardizeFileType sets ("." ++ row.extension) row.mime_type).value ≠
          mapping.type.getD "custom") ∧
    (∀ f, buildFromLocalFile sets db mapping tenant tm strict = .ok f →
      ((mapping.type.getD "custom" = "custom" ∨ mapping.type.getD "custom" = "") →
        f.type = standardizeFileType sets ("." ++ row.extension) row.mime_type) ∧
      (mapping.type.getD "custom" ≠ "custom" → mapping.type.getD "custom" ≠ "" →
        f.type.value = mapping.type.getD "custom")) := by
  simp only [buildFromLocalFile, hid, huuid, hrow, not_true, if_false]
  constructor
  · constructor
    · intro h
      by_cases hs : strict = true ∧
          (standardizeFileType sets ("." ++ row.extension) row.mime_type).value ≠
            mapping.type.getD "custom"
      · exact hs
      · exfalso
        rw [if_neg hs] at h
        by_cases hsp : mapping.type.getD "custom" ≠ "" ∧
            mapping.type.getD "custom" ≠ "custom"
        · rw [if_pos hsp] at h
          cases hft : FileType.fromValue (mapping.type.getD "custom") with
          | some t => rw [hft] at h; simp [Except.map] at h
          | none => rw [hft] at h; simp [Except.map] at h
        · rw [if_neg hsp] at h
          simp [Except.map] at h
    · rintro ⟨hs, hne⟩
      rw [if_pos ⟨hs, hne⟩]
  · intro f hf
    by_cases hs : strict = true ∧
        (standardizeFileType sets ("." ++ row.extension) row.mime_type).value ≠
          mapping.type.getD "custom"
    · rw [if_pos hs] at hf; cases hf
    · rw [if_neg hs] at hf
      by_cases hsp : mapping.type.getD "custom" ≠ "" ∧
          mapping.type.getD "custom" ≠ "custom"
      · rw [if_pos hsp] at hf
        cases hft : FileType.fromValue (mapping.type.getD "custom") with
        | some t =>
          rw [hft] at hf
          simp only [Except.map] at hf
          cases hf
          refine ⟨?_, ?_⟩
          · intro hcases
            rcases hcases with hc | hc
            · exact absurd hc hsp.2
            · exact absurd hc hsp.1
          · intro _ _
            exact fromValue_value hft
        | none => rw [hft] at hf; cases hf
      · rw [if_neg hsp] at hf
        simp only [Except.map] at hf
        cases hf
        refine ⟨fun _ => rfl, ?_⟩
        intro hc he
        exact absurd ⟨he, hc⟩ hsp

/-- C2, witness for the amended theorem: an explicitly declared "document"
category against a classified IMAGE record under strict validation fails with
TypeMismatch. -/
theorem c2_amended_witness :
    buildFromLocalFile sampleSets dbPng
      { upload_file_id := some uuidA, type := some "document" }
      "t1" .local_file true = .error .typeMismatch :=
  (c2_amended sampleSets dbPng
      { upload_file_id := some uuidA, type := some "document" }
      "t1" .local_file true pngRow (by decide) (by decide) (by decide)).1.mpr
    ⟨rfl, by decide⟩

/-- C3, confirmed: on the bare REMOTE_URL path (no related-record id) the
declared-versus-classified check is enforced on every build — the result does
not depend on the strict flag at all, and any successfully built file's
classified category equals the declared one (defaulting to CUSTOM) — whereas
on the record-backed REMOTE_URL path and the TOOL_PRODUCED path no
TypeMismatch can arise unless strict validation was requested and a category
was declared. -/
theorem c3_mismatch_check_asymmetry (sets : ExtensionSets) (db : Database)
    (probe : String → HeadResponse) (mapping : FileMapping) (tenant : String) :
    (truthyStr mapping.upload_file_id = false →
      ∀ s₁ s₂ : Bool,
        buildFromRemoteUrl sets db probe mapping tenant .remote_url s₁ =
          buildFromRemoteUrl sets db probe mapping tenant .remote_url s₂) ∧
    (truthyStr mapping.upload_file_id = false →
      ∀ (strict : Bool) (f : File),
        buildFromRemoteUrl sets db probe mapping tenant .remote_url strict = .ok f →
          f.type.value = mapping.type.getD "custom") ∧
    (truthyStr mapping.upload_file_id = true →
      ∀ strict : Bool, (strict = false ∨ mapping.type = none) →
        buildFromRemoteUrl sets db probe mapping tenant .remote_url strict ≠
          .error .typeMismatch) ∧
    (∀ strict : Bool, (strict = false ∨ mapping.type = none) →
      buildFromToolFile sets db mapping tenant .tool_file strict ≠
        .error .typeMismatch) := by
  refine ⟨?_, ?_, ?_, ?_⟩
  · intro hid s₁ s₂
    simp only [buildFromRemoteUrl, hid, Bool.false_eq_true, if_false]
  · intro hid strict f h
    simp only [buildFromRemoteUrl, hid, Bool.false_eq_true, if_false] at h
    split_ifs at h
    all_goals injection h with h
    all_goals subst h
    all_goals rename_i hc
    all_goals exact not_not.mp hc
  · intro hid strict hcond heq
    simp only [buildFromRemoteUrl, hid, eq_self_iff_true, if_true] at heq
    by_cases h1 : isValidUUID (mapping.upload_file_id.getD "") = true
    · rw [if_neg (not_not_intro h1)] at heq
      cases hfind : findUploadFile db (mapping.upload_file_id.getD "") tenant with
      | none => simp [hfind] at heq
      | some row =>
        simp only [hfind] at heq
        by_cases h2 : strict = true ∧ truthyStr mapping.type = true ∧
            (standardizeFileType sets ("." ++ row.extension) row.mime_type).value ≠
              mapping.type.getD ""
        · rcases hcond with hc | hc
          · rw [hc] at h2; exact absurd h2.1 (by simp)
          · rw [hc] at h2; exact absurd h2.2.1 (by simp [truthyStr])
        · rw [if_neg h2] at heq
          by_cases h3 : truthyStr mapping.type = true ∧ mapping.type.getD "" ≠ "custom"
          · rw [if_pos h3] at heq
            cases hfv : FileType.fromValue (mapping.type.getD "") with
            | some t => rw [hfv] at heq; simp [Except.map] at heq
            | none => rw [hfv] at heq; simp [Except.map] at heq
          · rw [if_neg h3] at heq; simp [Except.map] at heq
    · rw [if_pos h1] at heq; simp at heq
  · intro strict hcond heq
    simp only [buildFromToolFile] at heq
    cases hmtf : mapping.tool_file_id with
    | none => simp [hmtf] at heq
    | some tfid =>
      simp only [hmtf] at heq
      cases hfind : findToolFile db tfid tenant with
      | none => simp [hfind] at heq
      | some tool_file =>
        simp only [hfind] at heq
        by_cases h2 : strict = true ∧ truthyStr mapping.type = true ∧
            (standardizeFileType sets
              (if strHasSub tool_file.file_key "." = true then
                "." ++ (pySplit tool_file.file_key ".").getLastD ""
              else ".bin") tool_file.mimetype).value ≠ mapping.type.getD ""
        · rcases hcond with hc | hc
          · rw [hc] at h2; exact absurd h2.1 (by simp)
          · rw [hc] at h2; exact absurd h2.2.1 (by simp [truthyStr])
        · rw [if_neg h2] at heq
          by_cases h3 : truthyStr mapping.type = true ∧ mapping.type.getD "" ≠ "custom"
          · rw [if_pos h3] at heq
            cases hfv : FileType.fromValue (mapping.type.getD "") with
            | some t => rw [hfv] at heq; simp [Except.map] at heq
            | none => rw [hfv] at heq; simp [Except.map] at heq
          · rw [if_neg h3] at heq; simp [Except.map] at heq

/-- C3, witness: the bare build of `https://x/y.csv` is identical under both
strict settings, and a non-strict tool-file build never reports
TypeMismatch. -/
theorem c3_witness :
    buildFromRemoteUrl sampleSets emptyDb probeDown
      { transfer_method := some "remote_url", url := some "https://x/y.csv" }
      "t1" .remote_url true =
      buildFromRemoteUrl sampleSets emptyDb probeDown
        { transfer_method := some "remote_url", url := some "https://x/y.csv" }
        "t1" .remote_url false ∧
    buildFromToolFile sampleSets emptyDb
      { transfer_method := some "tool_file", tool_file_id := some "tf1" }
      "t1" .tool_file false ≠ .error .typeMismatch :=
  ⟨(c3_mismatch_check_asymmetry sampleSets emptyDb probeDown
      { transfer_method := some "remote_url", url := some "https://x/y.csv" }
      "t1").1 (by decide) true false,
    (c3_mismatch_check_asymmetry sampleSets emptyDb probeDown
      { transfer_method := some "tool_file", tool_file_id := some "tf1" }
      "t1").2.2.2 false (Or.inl rfl)⟩

/-- A built LOCAL file backed by `pngRow`, before storage-key resolution. -/
def fileA : File where
  id := some "f-a"
  filename := "a.png"
  extension := ".png"
  mime_type := some "image/png"
  tenant_id := "t1"
  type := .image
  transfer_method := .local_file
  remote_url := some "http://s/a.png"
  related_id := some uuidA
  size := 10
  storage_key := ""

/-- A LOCAL file whose backing record is absent from the store. -/
def fileB : File :=
  { fileA with id := some "f-b", related_id := some uuidB }

/-- C4, counterexample: with two LOCAL files of which only the first has a
backing record, `load_storage_keys` fails with the record-not-found error,
yet the first file's `storage_key` has already been rewritten — so a failing
resolve run does leave partial results, contradicting the claim that no file
in the input sequence has had its storageKey modified on any of the three
failures. -/
theorem c4_counterexample :
    (loadStorageKeys dbPng "t1" [fileA, fileB]).outcome =
      .error .uploadFileNotFound ∧
    (loadStorageKeys dbPng "t1" [fileA, fileB]).files =
      [{ fileA with storage_key := "key-a" }, fileB] ∧
    ({ fileA with storage_key := "key-a" } : File) ≠ fileA := by
  refine ⟨by decide, by decide, by decide⟩

/-- C4, amended: when `load_storage_keys` fails during the partitioning pass
— MissingReference, TenantMismatch, or an unparsable related id — it fails
before any batched lookup and no file's storageKey has been modified; a
RecordNotFound failure, however, is raised in the assignment pass and may
leave files earlier in the sequence already modified (as the counterexample
shows). -/
theorem c4_amended (db : Database) (tenant : String) (files : List File)
    (e : LoadErr) (hp : partitionIds tenant files = .error e) :
    loadStorageKeys db tenant files =
      { outcome := .error e, files := files, queryCount := 0 } := by
  unfold loadStorageKeys
  rw [hp]

/-- C4, witness: a tenant-mismatched file makes the loader fail while the
file list is returned untouched and no query was issued. -/
theorem c4_amended_witness :
    loadStorageKeys dbPng "t1" [{ fileA with tenant_id := "t2" }] =
      { outcome := .error .tenantMismatch,
        files := [{ fileA with tenant_id := "t2" }], queryCount := 0 } :=
  c4_amended dbPng "t1" [{ fileA with tenant_id := "t2" }] .tenantMismatch
    (by decide)

/-- The storage key the assignment pass is expected to take for one file: the
stored key of the file's backing record in the batched lookup result. -/
def expectedKey (umap : String → Option UploadFile)
    (tmap : String → Option ToolFile) (f : File) : Option String :=
  match f.transfer_method with
  | .tool_file => (tmap (normUUID (f.related_id.getD ""))).map (fun r => r.file_key)
  | _ => (umap (normUUID (f.related_id.getD ""))).map (fun r => r.key)

theorem assignStorageKeys_ok_spec (umap : String → Option UploadFile)
    (tmap : String → Option ToolFile) :
    ∀ files : List File,
      (assignStorageKeys umap tmap files).1 = .ok () →
      (assignStorageKeys umap tmap files).2 =
        files.map (fun f =>
          { f with storage_key := (expectedKey umap tmap f).getD f.storage_key }) ∧
      ∀ f ∈ files, expectedKey umap tmap f ≠ none := by
  intro files
  induction files with
  | nil => intro _; exact ⟨rfl, by simp⟩
  | cons f rest ih =>
    intro h
    cases hm : f.transfer_method with
    | local_file =>
      simp only [assignStorageKeys, hm] at h ⊢
      cases hl : umap (normUUID (f.related_id.getD "")) with
      | none => rw [hl] at h; exact Except.noConfusion h
      | some row =>
        rw [hl] at h
        simp only [hl]
        obtain ⟨h1, h2⟩ := ih h
        constructor
        · simp only [List.map_cons]
          rw [h1]
          congr 1
          simp [expectedKey, hm, hl]
        · intro g hg
          rcases List.mem_cons.mp hg with hg | hg
          · subst hg; simp [expectedKey, hm, hl]
          · exact h2 g hg
    | remote_url =>
      simp only [assignStorageKeys, hm] at h ⊢
      cases hl : umap (normUUID (f.related_id.getD "")) with
      | none => rw [hl] at h; exact Except.noConfusion h
      | some row =>
        rw [hl] at h
        simp only [hl]
        obtain ⟨h1, h2⟩ := ih h
        constructor
        · simp only [List.map_cons]
          rw [h1]
          congr 1
          simp [expectedKey, hm, hl]
        · intro g hg
          rcases List.mem_cons.mp hg with hg | hg
          · subst hg; simp [expectedKey, hm, hl]
          · exact h2 g hg
    | tool_file =>
      simp only [assignStorageKeys, hm] at h ⊢
      cases hl : tmap (normUUID (f.related_id.getD "")) with
      | none => rw [hl] at h; exact Except.noConfusion h
      | some row =>
        rw [hl] at h
        simp only [hl]
        obtain ⟨h1, h2⟩ := ih h
        constructor
        · simp only [List.map_cons]
          rw [h1]
          congr 1
          simp [expectedKey, hm, hl]
        · intro g hg
          rcases List.mem_cons.mp hg with hg | hg
          · subst hg; simp [expectedKey, hm, hl]
          · exact h2 g hg

/-- C5, confirmed: whenever the partition pass completes, `load_storage_keys`
issues exactly two batched lookups — one over the collected upload-record ids,
one over the collected tool-record ids — however many files were passed; and
on success the returned sequence is the input with every file's storage key
set to the stored key of its backing record in the batched lookup result,
every such record existing. -/
theorem c5_batched_loader (db : Database) (tenant : String) (files : List File) :
    (∀ uids tids, partitionIds tenant files = .ok (uids, tids) →
      (loadStorageKeys db tenant files).queryCount = 2) ∧
    ((loadStorageKeys db tenant files).outcome = .ok () →
      ∀ uids tids, partitionIds tenant files = .ok (uids, tids) →
        (loadStorageKeys db tenant files).files =
          files.map (fun f =>
            { f with storage_key :=
                (expectedKey (loaderUploadLookup db tenant uids)
                  (loaderToolLookup db tenant tids) f).getD f.storage_key }) ∧
        ∀ f ∈ files,
          expectedKey (loaderUploadLookup db tenant uids)
            (loaderToolLookup db tenant tids) f ≠ none) := by
  constructor
  · intro uids tids hp
    unfold loadStorageKeys
    rw [hp]
  · intro hok uids tids hp
    simp only [loadStorageKeys, hp] at hok ⊢
    exact assignStorageKeys_ok_spec (loaderUploadLookup db tenant uids)
      (loaderToolLookup db tenant tids) files hok

/-- C5, witness: resolving one LOCAL file against its stored record issues
two lookups and rewrites its storage key to the record's key. -/
theorem c5_witness :
    (loadStorageKeys dbPng "t1" [fileA]).queryCount = 2 ∧
    (loadStorageKeys dbPng "t1" [fileA]).files =
      [fileA].map (fun f =>
        { f with storage_key :=
            (expectedKey (loaderUploadLookup dbPng "t1" [normUUID uuidA])
              (loaderToolLookup dbPng "t1" []) f).getD f.storage_key }) :=
  ⟨(c5_batched_loader dbPng "t1" [fileA]).1 [normUUID uuidA] [] (by decide),
    ((c5_batched_loader dbPng "t1" [fileA]).2 (by decide) [normUUID uuidA] []
      (by decide)).1⟩

/-- C6, confirmed: the policy predicate accepts exactly when all four gates
pass — a truthy allowed-category list admits any non-CUSTOM category only if
listed; a present allowed-extension list admits a CUSTOM-category file only
if its extension is listed; an IMAGE-category file is checked only against a
truthy image-specific transfer-method list; a non-IMAGE file only against a
truthy general transfer-method list — and for IMAGE-category files the
general transfer-method list is never consulted. -/
theorem c6_policy_gates (t e : String) (m : FileTransferMethod)
    (cfg : FileUploadConfig) :
    (isFileValidWithConfig t e m cfg = true ↔
      ((truthyList cfg.allowed_file_types = true → t ≠ "custom" →
          t ∈ cfg.allowed_file_types.getD []) ∧
        (t = "custom" → ∀ exts, cfg.allowed_file_extensions = some exts →
          e ∈ exts) ∧
        (t = "image" → ∀ ic, cfg.image_config = some ic →
          truthyList ic.transfer_methods = true →
            m ∈ ic.transfer_methods.getD []) ∧
        (t ≠ "image" → truthyList cfg.allowed_file_upload_methods = true →
          m ∈ cfg.allowed_file_upload_methods.getD []))) ∧
    (t = "image" → ∀ l,
      isFileValidWithConfig t e m { cfg with allowed_file_upload_methods := l } =
        isFileValidWithConfig t e m cfg) := by
  constructor
  · unfold isFileValidWithConfig
    split_ifs with c1 c2 c3 c4
    · simp only [false_iff]
      rintro ⟨g1, g2, g3, g4⟩
      exact c1.2.1 (g1 c1.1 c1.2.2)
    · simp only [false_iff]
      rintro ⟨g1, g2, g3, g4⟩
      rcases hex : cfg.allowed_file_extensions with _ | exts
      · exact c2.2.1 hex
      · rw [hex, Option.getD_some] at c2
        exact c2.2.2 (g2 c2.1 exts hex)
    · rcases hic : cfg.image_config with _ | ic
      · simp only [hic, true_iff]
        refine ⟨?_, ?_, ?_, ?_⟩
        · intro ht hne
          by_contra hnotin
          exact c1 ⟨ht, hnotin, hne⟩
        · intro hcust; exact absurd (hcust.symm.trans c3) (by decide)
        · intro _ ic hic2; exact Option.noConfusion hic2
        · intro hne; exact absurd c3 hne
      · simp only [hic]
        split_ifs with c5
        · simp only [false_iff]
          rintro ⟨g1, g2, g3, g4⟩
          exact c5.2 (g3 c3 ic rfl c5.1)
        · simp only [true_iff]
          refine ⟨?_, ?_, ?_, ?_⟩
          · intro ht hne
            by_contra hnotin
            exact c1 ⟨ht, hnotin, hne⟩
          · intro hcust; exact absurd (hcust.symm.trans c3) (by decide)
          · intro _ ic2 hic2
            injection hic2 with hic2
            subst hic2
            intro htr
            by_contra hnotin
            exact c5 ⟨htr, hnotin⟩
          · intro hne; exact absurd c3 hne
    · simp only [false_iff]
      rintro ⟨g1, g2, g3, g4⟩
      exact c4.2 (g4 c3 c4.1)
    · simp only [true_iff]
      refine ⟨?_, ?_, ?_, ?_⟩
      · intro ht hne
        by_contra hnotin
        exact c1 ⟨ht, hnotin, hne⟩
      · intro hcust exts hexts
        by_contra hnotin
        refine c2 ⟨hcust, ?_, ?_⟩
        · rw [hexts]; exact Option.noConfusion
        · rw [hexts, Option.getD_some]; exact hnotin
      · intro ht; exact absurd ht c3
      · intro _ htr
        by_contra hnotin
        exact c4 ⟨htr, hnotin⟩
  · intro himg l
    subst himg
    rfl

/-- C6, witness: an IMAGE-category file is accepted although the general
transfer-method list would have rejected its method — the image gate alone is
consulted — and swapping the general list does not change the image
verdict. -/
theorem c6_witness :
    isFileValidWithConfig "image" ".png" .remote_url
      { allowed_file_types := some ["image"], allowed_file_extensions := none,
        allowed_file_upload_methods := some [.local_file], image_config := none,
        number_limits := 0 } = true ∧
    isFileValidWithConfig "image" ".png" .remote_url
      { allowed_file_types := some ["image"], allowed_file_extensions := none,
        allowed_file_upload_methods := none, image_config := none,
        number_limits := 0 } =
      isFileValidWithConfig "image" ".png" .remote_url
        { allowed_file_types := some ["image"], allowed_file_extensions := none,
          allowed_file_upload_methods := some [.local_file], image_config := none,
          number_limits := 0 } :=
  ⟨(c6_policy_gates "image" ".png" .remote_url
      { allowed_file_types := some ["image"], allowed_file_extensions := none,
        allowed_file_upload_methods := some [.local_file], image_config := none,
        number_limits := 0 }).1.mpr
    ⟨fun _ _ => by decide, fun h => absurd h (by decide),
      fun _ ic h => Option.noConfusion h, fun h => absurd rfl h⟩,
    ((c6_policy_gates "image" ".png" .remote_url
      { allowed_file_types := some ["image"], allowed_file_extensions := none,
        allowed_file_upload_methods := some [.local_file], image_config := none,
        number_limits := 0 }).2 rfl none).symm⟩

/-- C7, confirmed: in a batch build the per-file builds run first and any
per-file error is returned as-is (aggregate limits are never reached); when
every build succeeds, a configured image sub-configuration whose limit is
exceeded by the IMAGE-category files fails the batch with TooManyImages, and
otherwise a non-zero overall count limit exceeded by the total file count
fails it with TooManyFiles. -/
theorem c7_batch_limits (sets : ExtensionSets) (db : Database)
    (probe : String → HeadResponse) (mappings : List FileMapping)
    (tenant : String) (cfg : FileUploadConfig) (strict : Bool) :
    (∀ e, mappings.mapM (fun m =>
        buildFromMapping sets db probe m tenant (some cfg) strict) = .error e →
      buildFromMappings sets db probe mappings (some cfg) tenant strict =
        .error e) ∧
    (∀ files ic, mappings.mapM (fun m =>
        buildFromMapping sets db probe m tenant (some cfg) strict) = .ok files →
      cfg.image_config = some ic →
      (files.filter (fun f => f.type = FileType.image)).length >
        ic.number_limits →
      buildFromMappings sets db probe mappings (some cfg) tenant strict =
        .error .tooManyImages) ∧
    (∀ files, mappings.mapM (fun m =>
        buildFromMapping sets db probe m tenant (some cfg) strict) = .ok files →
      (∀ ic, cfg.image_config = some ic →
        (files.filter (fun f => f.type = FileType.image)).length ≤
          ic.number_limits) →
      cfg.number_limits ≠ 0 → files.length > cfg.number_limits →
      buildFromMappings sets db probe mappings (some cfg) tenant strict =
        .error .tooManyFiles) := by
  refine ⟨?_, ?_, ?_⟩
  · intro e h
    unfold buildFromMappings
    rw [h]
  · intro files ic h hic hgt
    unfold buildFromMappings
    rw [h]
    simp [hic, hgt]
  · intro files h hle h0 hgt
    unfold buildFromMappings
    rw [h]
    cases hic : cfg.image_config with
    | none => simp [hic, h0, hgt]
    | some ic =>
      have := hle ic hic
      simp [hic, Nat.not_lt.mpr this, h0, hgt]

def mLocalA : FileMapping :=
  { transfer_method := some "local_file", upload_file_id := some uuidA }

def cfgImages2 : FileUploadConfig :=
  { allowed_file_types := none, allowed_file_extensions := none,
    allowed_file_upload_methods := none,
    image_config := some { number_limits := 2, transfer_methods := none },
    number_limits := 0 }

/-- The `File` produced by building `mLocalA` against `dbPng`. -/
def filePngBuilt : File where
  id := none
  filename := "a.png"
  extension := ".png"
  mime_type := some "image/png"
  tenant_id := "t1"
  type := .image
  transfer_method := .local_file
  remote_url := some "http://s/a.png"
  related_id := some uuidA
  size := 10
  storage_key := "key-a"

/-- C7, witness: three IMAGE builds against an image limit of 2 fail the
batch with TooManyImages. -/
theorem c7_witness :
    buildFromMappings sampleSets dbPng probeDown [mLocalA, mLocalA, mLocalA]
      (some cfgImages2) "t1" false = .error .tooManyImages :=
  (c7_batch_limits sampleSets dbPng probeDown [mLocalA, mLocalA, mLocalA]
      "t1" cfgImages2 false).2.1
    [filePngBuilt, filePngBuilt, filePngBuilt]
    { number_limits := 2, transfer_methods := none }
    (by decide) (by decide) (by decide)

/-- C8, confirmed (over the spec-modelled extension tables, taken pairwise
disjoint and free of the empty extension as any extension table is): the
classifier is total; an extension whose dot-stripped form lies in one of the
four per-category lists yields that category regardless of the mime-type;
when the extension is empty or matches no list, the result is the mime-type
substring test — "image" then "video" then "audio" then "text"/"pdf", in that
order — and CUSTOM when nothing matches, including `classify("", "")`. -/
theorem c8_classifier (sets : ExtensionSets) (ext mime : String)
    (hiv : ∀ x ∈ sets.image, x ∉ sets.video)
    (hia : ∀ x ∈ sets.image, x ∉ sets.audio)
    (hid : ∀ x ∈ sets.image, x ∉ sets.document)
    (hva : ∀ x ∈ sets.video, x ∉ sets.audio)
    (hvd : ∀ x ∈ sets.video, x ∉ sets.document)
    (had : ∀ x ∈ sets.audio, x ∉ sets.document)
    (he1 : "" ∉ sets.image) (he2 : "" ∉ sets.video)
    (he3 : "" ∉ sets.audio) (he4 : "" ∉ sets.document) :
    (lstripDots ext ∈ sets.image → standardizeFileType sets ext mime = .image) ∧
    (lstripDots ext ∈ sets.video → standardizeFileType sets ext mime = .video) ∧
    (lstripDots ext ∈ sets.audio → standardizeFileType sets ext mime = .audio) ∧
    (lstripDots ext ∈ sets.document →
      standardizeFileType sets ext mime = .document) ∧
    (ext = "" ∨ (lstripDots ext ∉ sets.image ∧ lstripDots ext ∉ sets.video ∧
        lstripDots ext ∉ sets.audio ∧ lstripDots ext ∉ sets.document) →
      standardizeFileType sets ext mime =
        (if mime = "" then .custom else getFileTypeByMimetype mime)) ∧
    (strHasSub mime "image" = true → getFileTypeByMimetype mime = .image) ∧
    (strHasSub mime "image" = false → strHasSub mime "video" = true →
      getFileTypeByMimetype mime = .video) ∧
    (strHasSub mime "image" = false → strHasSub mime "video" = false →
      strHasSub mime "audio" = true → getFileTypeByMimetype mime = .audio) ∧
    (strHasSub mime "image" = false → strHasSub mime "video" = false →
      strHasSub mime "audio" = false →
      (strHasSub mime "text" = true ∨ strHasSub mime "pdf" = true) →
      getFileTypeByMimetype mime = .document) ∧
    (strHasSub mime "image" = false → strHasSub mime "video" = false →
      strHasSub mime "audio" = false → strHasSub mime "text" = false →
      strHasSub mime "pdf" = false → getFileTypeByMimetype mime = .custom) ∧
    standardizeFileType sets "" "" = .custom := by
  have hlne : ∀ s, lstripDots s ∈ sets.image ∨ lstripDots s ∈ sets.video ∨
      lstripDots s ∈ sets.audio ∨ lstripDots s ∈ sets.document → s ≠ "" := by
    intro s hmem hs
    subst hs
    rcases hmem with h | h | h | h
    · exact he1 h
    · exact he2 h
    · exact he3 h
    · exact he4 h
  refine ⟨?_, ?_, ?_, ?_, ?_, ?_, ?_, ?_, ?_, ?_, ?_⟩
  · intro hmem
    have hne := hlne ext (Or.inl hmem)
    simp [standardizeFileType, getFileTypeByExtension, hne, hmem]
  · intro hmem
    have hne := hlne ext (Or.inr (Or.inl hmem))
    have h1 : lstripDots ext ∉ sets.image := fun hc => hiv _ hc hmem
    simp [standardizeFileType, getFileTypeByExtension, hne, hmem, h1]
  · intro hmem
    have hne := hlne ext (Or.inr (Or.inr (Or.inl hmem)))
    have h1 : lstripDots ext ∉ sets.image := fun hc => hia _ hc hmem
    have h2 : lstripDots ext ∉ sets.video := fun hc => hva _ hc hmem
    simp [standardizeFileType, getFileTypeByExtension, hne, hmem, h1, h2]
  · intro hmem
    have hne := hlne ext (Or.inr (Or.inr (Or.inr hmem)))
    have h1 : lstripDots ext ∉ sets.image := fun hc => hid _ hc hmem
    have h2 : lstripDots ext ∉ sets.video := fun hc => hvd _ hc hmem
    have h3 : lstripDots ext ∉ sets.audio := fun hc => had _ hc hmem
    simp [standardizeFileType, getFileTypeByExtension, hne, hmem, h1, h2, h3]
  · intro hcase
    rcases hcase with hcase | ⟨h1, h2, h3, h4⟩
    · subst hcase
      by_cases hm : mime = ""
      · simp [standardizeFileType, hm]
      · simp [standardizeFileType, hm]
    · by_cases he : ext = ""
      · subst he
        by_cases hm : mime = ""
        · simp [standardizeFileType, hm]
        · simp [standardizeFileType, hm]
      · by_cases hm : mime = ""
        · simp [standardizeFileType, getFileTypeByExtension, he, h1, h2, h3, h4, hm]
        · simp [standardizeFileType, getFileTypeByExtension, he, h1, h2, h3, h4, hm]
  · intro hm
    simp [getFileTypeByMimetype, hm]
  · intro hm1 hm2
    simp [getFileTypeByMimetype, hm1, hm2]
  · intro hm1 hm2 hm3
    simp [getFileTypeByMimetype, hm1, hm2, hm3]
  · intro hm1 hm2 hm3 hm4
    rcases hm4 with hm4 | hm4 <;>
      simp [getFileTypeByMimetype, hm1, hm2, hm3, hm4]
  · intro hm1 hm2 hm3 hm4 hm5
    simp [getFileTypeByMimetype, hm1, hm2, hm3, hm4, hm5]
  · simp [standardizeFileType]

/-- C8, witness at the sample tables: a document extension beats an image
mime-type; the empty extension falls back to the mime substring test; the
doubly-empty input classifies as CUSTOM. -/
theorem c8_witness :
    standardizeFileType sampleSets ".csv" "image/png" = .document ∧
    standardizeFileType sampleSets "" "application/pdf" = .document ∧
    standardizeFileType sampleSets "" "" = .custom :=
  have h := c8_classifier sampleSets ".csv" "image/png"
    (by decide) (by decide) (by decide) (by decide) (by decide) (by decide)
    (by decide) (by decide) (by decide) (by decide)
  have h2 := c8_classifier sampleSets "" "application/pdf"
    (by decide) (by decide) (by decide) (by decide) (by decide) (by decide)
    (by decide) (by decide) (by decide) (by decide)
  ⟨h.2.2.2.1 (by decide),
    by
      have hfall := h2.2.2.2.2.1 (Or.inl rfl)
      have hdoc := h2.2.2.2.2.2.2.2.2.1 (by decide) (by decide) (by decide)
        (Or.inr (by decide))
      rw [hfall, if_neg (by decide), hdoc],
    h2.2.2.2.2.2.2.2.2.2.2⟩

/-- C9, confirmed: post-construction policy validation in `build_from_mapping`
is driven by the caller-declared type from the input descriptor (defaulting to
CUSTOM when omitted), never by the built File's classified category: for any
descriptor that omits the type, the configured build equals the unconfigured
build filtered through the policy applied at the literal category "custom",
whatever the built File's own category is. -/
theorem c9_policy_uses_declared_type (sets : ExtensionSets) (db : Database)
    (probe : String → HeadResponse) (mapping : FileMapping) (tenant : String)
    (cfg : FileUploadConfig) (strict : Bool) (hty : mapping.type = none) :
    buildFromMapping sets db probe mapping tenant (some cfg) strict =
      match buildFromMapping sets db probe mapping tenant none strict with
      | .error e => .error e
      | .ok f =>
        if isFileValidWithConfig "custom" f.extension f.transfer_method cfg then
          .ok f
        else .error .policyViolation := by
  unfold buildFromMapping
  cases hvo : FileTransferMethod.value_of mapping.transfer_method with
  | none => rfl
  | some tm =>
    cases tm with
    | local_file =>
      cases hb : buildFromLocalFile sets db mapping tenant .local_file strict with
      | error e => simp [hb]
      | ok f => simp [hb, hty]
    | remote_url =>
      cases hb : buildFromRemoteUrl sets db probe mapping tenant
          .remote_url strict with
      | error e => simp [hb]
      | ok f => simp [hb, hty]
    | tool_file =>
      cases hb : buildFromToolFile sets db mapping tenant .tool_file strict with
      | error e => simp [hb]
      | ok f => simp [hb, hty]

/-- C9, witness: with an allowed-category list of VIDEO only, a LOCAL build
that omits the declared type succeeds although the built File's category is
IMAGE — the policy treated it as CUSTOM, which the category gate exempts. -/
theorem c9_witness :
    ({ transfer_method := some "local_file",
        upload_file_id := some uuidA } : FileMapping).type = none ∧
    buildFromMapping sampleSets dbPng probeDown
        { transfer_method := some "local_file", upload_file_id := some uuidA }
        "t1"
        (some { allowed_file_types := some ["video"],
                allowed_file_extensions := none,
                allowed_file_upload_methods := none, image_config := none,
                number_limits := 0 }) false =
      (match buildFromMapping sampleSets dbPng probeDown
          { transfer_method := some "local_file", upload_file_id := some uuidA }
          "t1" none false with
      | .error e => .error e
      | .ok f =>
        if isFileValidWithConfig "custom" f.extension f.transfer_method
            { allowed_file_types := some ["video"],
              allowed_file_extensions := none,
              allowed_file_upload_methods := none, image_config := none,
              number_limits := 0 } then .ok f
        else .error .policyViolation) ∧
    buildFromMapping sampleSets dbPng probeDown
        { transfer_method := some "local_file", upload_file_id := some uuidA }
        "t1" none false = .ok filePngBuilt ∧
    filePngBuilt.type = .image :=
  ⟨rfl,
    c9_policy_uses_declared_type sampleSets dbPng probeDown
      { transfer_method := some "local_file", upload_file_id := some uuidA }
      "t1"
      { allowed_file_types := some ["video"], allowed_file_extensions := none,
        allowed_file_upload_methods := none, image_config := none,
        number_limits := 0 } false rfl,
    by decide, rfl⟩

theorem dot_append_head (s : String) : ("." ++ s).data.head? = some '.' := by
  cases s with
  | mk l => rfl

theorem guessExtension_dot {m : Option String} {e : String}
    (h : guessExtension m = some e) : e.data.head? = some '.' := by
  cases m with
  | none => exact Option.noConfusion h
  | some s =>
    simp only [guessExtension] at h
    cases hf : mimeTypesTable.find? (fun p => p.2 = s) with
    | none => rw [hf] at h; exact Option.noConfusion h
    | some p =>
      rw [hf] at h
      injection h with h
      subst h
      have hall : ∀ q ∈ mimeTypesTable, q.1.data.head? = some '.' := by decide
      exact hall p (List.mem_of_find?_eq_some hf)

theorem buildFromLocalFile_extension (sets : ExtensionSets) (db : Database)
    (mapping : FileMapping) (tenant : String) (tm : FileTransferMethod)
    (strict : Bool) (f : File)
    (h : buildFromLocalFile sets db mapping tenant tm strict = .ok f) :
    f.extension.data.head? = some '.' := by
  simp only [buildFromLocalFile] at h
  by_cases c1 : truthyStr mapping.upload_file_id = true
  · rw [if_neg (not_not_intro c1)] at h
    by_cases c2 : isValidUUID (mapping.upload_file_id.getD "") = true
    · rw [if_neg (not_not_intro c2)] at h
      cases hfind : findUploadFile db (mapping.upload_file_id.getD "") tenant with
      | none =>
        simp only [hfind] at h
        exact Except.noConfusion h
      | some row =>
        simp only [hfind] at h
        by_cases c3 : strict = true ∧
            (standardizeFileType sets ("." ++ row.extension)
              row.mime_type).value ≠ mapping.type.getD "custom"
        · rw [if_pos c3] at h; exact Except.noConfusion h
        · rw [if_neg c3] at h
          by_cases c4 : mapping.type.getD "custom" ≠ "" ∧
              mapping.type.getD "custom" ≠ "custom"
          · rw [if_pos c4] at h
            cases hfv : FileType.fromValue (mapping.type.getD "custom") with
            | some t =>
              simp only [hfv, Except.map] at h
              injection h with h
              subst h
              exact dot_append_head row.extension
            | none =>
              simp only [hfv, Except.map] at h
              exact Except.noConfusion h
          · rw [if_neg c4] at h
            simp only [Except.map] at h
            injection h with h
            subst h
            exact dot_append_head row.extension
    · rw [if_pos c2] at h; exact Except.noConfusion h
  · rw [if_pos c1] at h; exact Except.noConfusion h

theorem buildFromRemoteUrl_extension (sets : ExtensionSets) (db : Database)
    (probe : String → HeadResponse) (mapping : FileMapping) (tenant : String)
    (tm : FileTransferMethod) (strict : Bool) (f : File)
    (h : buildFromRemoteUrl sets db probe mapping tenant tm strict = .ok f) :
    f.extension.data.head? = some '.' := by
  by_cases c1 : truthyStr mapping.upload_file_id = true
  · simp only [buildFromRemoteUrl, c1, eq_self_iff_true, if_true] at h
    by_cases c2 : isValidUUID (mapping.upload_file_id.getD "") = true
    · rw [if_neg (not_not_intro c2)] at h
      cases hfind : findUploadFile db (mapping.upload_file_id.getD "") tenant with
      | none =>
        simp only [hfind] at h
        exact Except.noConfusion h
      | some row =>
        simp only [hfind] at h
        by_cases c3 : strict = true ∧ truthyStr mapping.type = true ∧
            (standardizeFileType sets ("." ++ row.extension)
              row.mime_type).value ≠ mapping.type.getD ""
        · rw [if_pos c3] at h; exact Except.noConfusion h
        · rw [if_neg c3] at h
          by_cases c4 : truthyStr mapping.type = true ∧
              mapping.type.getD "" ≠ "custom"
          · rw [if_pos c4] at h
            cases hfv : FileType.fromValue (mapping.type.getD "") with
            | some t =>
              simp only [hfv, Except.map] at h
              injection h with h
              subst h
              exact dot_append_head row.extension
            | none =>
              simp only [hfv, Except.map] at h
              exact Except.noConfusion h
          · rw [if_neg c4] at h
            simp only [Except.map] at h
            injection h with h
            subst h
            exact dot_append_head row.extension
    · rw [if_pos c2] at h; exact Except.noConfusion h
  · simp only [buildFromRemoteUrl, c1, Bool.false_eq_true, if_false] at h
    by_cases c6 : truthyStr mapping.url = true
    · simp only [c6, eq_self_iff_true, if_true, not_true, if_false] at h
      · split_ifs at h <;>
          first
            | exact Except.noConfusion h
            | (injection h with h
               subst h
               cases hge : guessExtension
                   (getRemoteFileInfo probe (mapping.url.getD "")).1 with
               | some e =>
                 simp only [hge]
                 exact guessExtension_dot hge
               | none =>
                 simp only [hge]
                 first
                   | exact dot_append_head _
                   | rfl
                   | (split_ifs <;> first | exact dot_append_head _ | rfl))
    · simp only [c6, Bool.false_eq_true, if_false] at h
      by_cases c7 : truthyStr mapping.remote_url = true
      · rw [if_neg (not_not_intro c7)] at h
        split_ifs at h <;>
          first
            | exact Except.noConfusion h
            | (injection h with h
               subst h
               cases hge : guessExtension
                   (getRemoteFileInfo probe (mapping.remote_url.getD "")).1 with
               | some e =>
                 simp only [hge]
                 exact guessExtension_dot hge
               | none =>
                 simp only [hge]
                 first
                   | exact dot_append_head _
                   | rfl
                   | (split_ifs <;> first | exact dot_append_head _ | rfl))
      · rw [if_pos c7] at h; exact Except.noConfusion h

theorem buildFromToolFile_extension (sets : ExtensionSets) (db : Database)
    (mapping : FileMapping) (tenant : String) (tm : FileTransferMethod)
    (strict : Bool) (f : File)
    (h : buildFromToolFile sets db mapping tenant tm strict = .ok f) :
    f.extension.data.head? = some '.' := by
  simp only [buildFromToolFile] at h
  cases hmtf : mapping.tool_file_id with
  | none =>
    simp only [hmtf] at h
    exact Except.noConfusion h
  | some tfid =>
    simp only [hmtf] at h
    cases hfind : findToolFile db tfid tenant with
    | none =>
      simp only [hfind] at h
      exact Except.noConfusion h
    | some tool_file =>
      simp only [hfind] at h
      by_cases c3 : strict = true ∧ truthyStr mapping.type = true ∧
          (standardizeFileType sets
            (if strHasSub tool_file.file_key "." = true then
              "." ++ (pySplit tool_file.file_key ".").getLastD ""
            else ".bin") tool_file.mimetype).value ≠ mapping.type.getD ""
      · rw [if_pos c3] at h; exact Except.noConfusion h
      · rw [if_neg c3] at h
        by_cases c4 : truthyStr mapping.type = true ∧
            mapping.type.getD "" ≠ "custom"
        · rw [if_pos c4] at h
          cases hfv : FileType.fromValue (mapping.type.getD "") with
          | some t =>
            simp only [hfv, Except.map] at h
            injection h with h
            subst h
            split_ifs
            · exact dot_append_head _
            · rfl
          | none =>
            simp only [hfv, Except.map] at h
            exact Except.noConfusion h
        · rw [if_neg c4] at h
          simp only [Except.map] at h
          injection h with h
          subst h
          split_ifs
          · exact dot_append_head _
          · rfl

/-- C10, confirmed: every `File` successfully produced by `build_from_mapping`
— hence by any of the three build paths, with or without a backing record —
has an extension that starts with the "." separator or is empty (in fact it
always starts with "."). -/
theorem c10_extension_invariant (sets : ExtensionSets) (db : Database)
    (probe : String → HeadResponse) (mapping : FileMapping) (tenant : String)
    (cfg : Option FileUploadConfig) (strict : Bool) (f : File)
    (h : buildFromMapping sets db probe mapping tenant cfg strict = .ok f) :
    f.extension = "" ∨ f.extension.data.head? = some '.' := by
  refine Or.inr ?_
  unfold buildFromMapping at h
  cases hvo : FileTransferMethod.value_of mapping.transfer_method with
  | none =>
    simp only [hvo] at h
    exact Except.noConfusion h
  | some tm =>
    simp only [hvo] at h
    cases tm with
    | local_file =>
      cases hb : buildFromLocalFile sets db mapping tenant .local_file strict with
      | error e =>
        simp only [hb] at h
        exact Except.noConfusion h
      | ok file =>
        simp only [hb] at h
        split at h
        · injection h with h
          subst h
          exact buildFromLocalFile_extension sets db mapping tenant
            .local_file strict file hb
        · split_ifs at h
          injection h with h
          subst h
          exact buildFromLocalFile_extension sets db mapping tenant
            .local_file strict file hb
    | remote_url =>
      cases hb : buildFromRemoteUrl sets db probe mapping tenant
          .remote_url strict with
      | error e =>
        simp only [hb] at h
        exact Except.noConfusion h
      | ok file =>
        simp only [hb] at h
        split at h
        · injection h with h
          subst h
          exact buildFromRemoteUrl_extension sets db probe mapping tenant
            .remote_url strict file hb
        · split_ifs at h
          injection h with h
          subst h
          exact buildFromRemoteUrl_extension sets db probe mapping tenant
            .remote_url strict file hb
    | tool_file =>
      cases hb : buildFromToolFile sets db mapping tenant .tool_file strict with
      | error e =>
        simp only [hb] at h
        exact Except.noConfusion h
      | ok file =>
        simp only [hb] at h
        split at h
        · injection h with h
          subst h
          exact buildFromToolFile_extension sets db mapping tenant
            .tool_file strict file hb
        · split_ifs at h
          injection h with h
          subst h
          exact buildFromToolFile_extension sets db mapping tenant
            .tool_file strict file hb

/-- C10, witness: the LOCAL build of the stored PNG record succeeds and its
extension ".png" starts with the separator. -/
theorem c10_witness :
    buildFromMapping sampleSets dbPng probeDown mLocalA "t1" none false =
      .ok filePngBuilt ∧
    (filePngBuilt.extension = "" ∨
      filePngBuilt.extension.data.head? = some '.') :=
  ⟨by decide,
    c10_extension_invariant sampleSets dbPng probeDown mLocalA "t1" none false
      filePngBuilt (by decide)⟩
